import Mathlib

/-!
Verification of the sidecar-pair uploader.

The program watches a directory tree, and for each filesystem change
notification: filters the path (`should_process_file`), resolves the
`<stem>.mp3` / `<stem>.txt` sidecar pair (`extract_file_info`), parses
metadata out of the mp3 filename (`parse_filename`, a regex
`(\d{8}_\d{6}).*__TO_(\d+)(?:_FROM_(\d+))?` with leftmost-first,
greedy-backtracking semantics), and POSTs one multipart request
(`upload_file`).  Strings are modelled as `List Char`, paths as lists of
components, the filesystem as predicate/partial-read functions, and the
network as a response oracle `UploadRequest → Bool`.  The regex character
class `\d` is modelled by `Char.isDigit` and `.` matches every character
except a newline, mirroring the regex crate's defaults.
-/

namespace Uploader

/-- Alternation with first-success priority, used to express backtracking
preference order of the regex engine. -/
def orElseO {α : Type} (a b : Option α) : Option α :=
  match a with
  | some r => some r
  | none => b

@[simp] theorem orElseO_none {α : Type} (b : Option α) : orElseO none b = b := rfl

/-- The literal marker `__TO_` of the filename grammar. -/
def markerTO : List Char := ['_', '_', 'T', 'O', '_']

/-- The literal marker `_FROM_` of the filename grammar. -/
def markerFROM : List Char := ['_', 'F', 'R', 'O', 'M', '_']

/-- Fixed default radio id substituted when the `_FROM_` group is absent. -/
def defaultRadioId : List Char := ['1', '2', '3', '4', '5', '6']

/-- Matches the tail pattern `__TO_(\d+)(?:_FROM_(\d+))?` exactly at the head
of the input, returning the two captures (talkgroup id, optional radio id).
Greedy `\d+` takes the maximal digit run; the optional group matches only
when `_FROM_` followed by at least one digit is present. -/
def matchTO (s : List Char) : Option (List Char × Option (List Char)) :=
  if markerTO.isPrefixOf s then
    let rest := s.drop 5
    let tg := rest.takeWhile Char.isDigit
    if tg = [] then none
    else
      let rest2 := rest.dropWhile Char.isDigit
      let rid :=
        if markerFROM.isPrefixOf rest2 then
          let rid0 := (rest2.drop 6).takeWhile Char.isDigit
          if rid0 = [] then none else some rid0
        else none
      some (tg, rid)
  else none

/-- Matches `.*__TO_(\d+)(?:_FROM_(\d+))?` at the head of the input with the
regex engine's greedy preference: the `.*` (which cannot cross a newline)
consumes as much as possible first, so the latest viable `__TO_` wins. -/
def dotStarTO : List Char → Option (List Char × Option (List Char))
  | [] => none
  | c :: rest =>
    if c = '\n' then matchTO (c :: rest)
    else orElseO (dotStarTO rest) (matchTO (c :: rest))

/-- Matches `(\d{8}_\d{6})` exactly at the head of the input, returning the
capture and the remaining input. -/
def matchTimestamp (s : List Char) : Option (List Char × List Char) :=
  let d8 := s.take 8
  let s1 := s.drop 8
  if (d8.length == 8) && d8.all Char.isDigit then
    if s1.head? == some '_' then
      let s2 := s1.tail
      let d6 := s2.take 6
      if (d6.length == 6) && d6.all Char.isDigit then
        some (d8 ++ '_' :: d6, s2.drop 6)
      else none
    else none
  else none

/-- Matches the full regex at the head of the input, returning the three
captures (timestamp, talkgroup id, optional radio id). -/
def matchAt (s : List Char) : Option (List Char × List Char × Option (List Char)) :=
  match matchTimestamp s with
  | none => none
  | some (ts, rest) =>
    match dotStarTO rest with
    | none => none
    | some (tg, rid) => some (ts, tg, rid)

/-- Unanchored search: tries each start position left to right, i.e. the
leftmost overall match wins, as in the regex engine. -/
def findMatch : List Char → Option (List Char × List Char × Option (List Char))
  | [] => none
  | c :: t => orElseO (matchAt (c :: t)) (findMatch t)

/-- Embedding of `parse_filename` (src/uploader.rs lines 101-116): runs the
regex and substitutes the fixed default when the radio-id capture is absent. -/
def parse_filename (filename : List Char) : Option (List Char × List Char × List Char) :=
  match findMatch filename with
  | none => none
  | some (ts, tg, rid) => some (ts, tg, rid.getD defaultRadioId)

/-- A path component (one directory or file name). -/
abbrev Component := List Char

/-- A filesystem path, as its list of components. -/
abbrev FsPath := List Component

/-- Embedding of `Path::parent`: the path with its last component removed;
`none` for the empty path. -/
def parent (p : FsPath) : Option FsPath :=
  if p = [] then none else some p.dropLast

/-- Embedding of `Path::file_stem` on a file name: the portion before the
last `.`, except that a name without a `.`, or whose only `.` is leading,
is its own stem. -/
def stemOf (name : Component) : Component :=
  let r := name.reverse
  let ext := r.takeWhile (fun c => c != '.')
  if ext.length = r.length then name
  else
    let stemR := r.drop (ext.length + 1)
    if stemR = [] then name else stemR.reverse

/-- The `.mp3` suffix appended to the stem by `extract_file_info`. -/
def mp3Ext : List Char := ['.', 'm', 'p', '3']

/-- The `.txt` suffix appended to the stem by `extract_file_info`. -/
def txtExt : List Char := ['.', 't', 'x', 't']

/-- The filesystem as seen by the program: existence and regular-file checks
(`Path::exists`, `Path::is_file`) and full-content reads (`fs::read`, whose
failure is `none`). -/
structure FS where
  fsExists : FsPath → Bool
  isFile : FsPath → Bool
  fsRead : FsPath → Option (List Nat)

/-- Embedding of `extract_file_info` (src/uploader.rs lines 86-99): computes
stem and parent directory, builds the two sibling paths `<stem>.mp3` and
`<stem>.txt`, and returns them only when both exist. -/
def extract_file_info (fs : FS) (file_path : FsPath) : Option (FsPath × FsPath) :=
  match file_path.getLast? with
  | none => none
  | some name =>
    match parent file_path with
    | none => none
    | some parent_dir =>
      let mp3_path := parent_dir ++ [stemOf name ++ mp3Ext]
      let txt_path := parent_dir ++ [stemOf name ++ txtExt]
      if fs.fsExists mp3_path && fs.fsExists txt_path then some (mp3_path, txt_path)
      else none

/-- Embedding of `should_process_file` (src/uploader.rs lines 51-55): the
path is eligible iff its parent is not the watched root itself and it is
currently a regular file. -/
def should_process_file (fs : FS) (file_path root_path : FsPath) : Bool :=
  !(parent file_path == some root_path) && fs.isFile file_path

/-- One field of the multipart form, in construction order. -/
inductive FormField where
  | text (name value : List Char)
  | filePart (name fileName mime : List Char) (bytes : List Nat)
deriving DecidableEq

/-- The single outbound HTTP POST assembled by `upload_file`. -/
structure UploadRequest where
  url : List Char
  apiKey : List Char
  form : List FormField
deriving DecidableEq

/-- The fixed ingestion endpoint. -/
def uploadUrl : List Char := "https://some.host:3000/api/upload".toList

/-- The static `X-API-Key` header value. -/
def apiKeyValue : List Char := "12345678".toList

/-- Form field name for the talkgroup id. -/
def tgFieldName : List Char := "talkgroupId".toList

/-- Form field name for the timestamp. -/
def tsFieldName : List Char := "timestamp".toList

/-- Form field name for the radio id. -/
def ridFieldName : List Char := "radioId".toList

/-- Form part name for the media bytes. -/
def mp3PartName : List Char := "mp3".toList

/-- Form part name for the transcript bytes. -/
def txtPartName : List Char := "transcription".toList

/-- MIME type of the media part. -/
def mp3Mime : List Char := "audio/mpeg".toList

/-- MIME type of the transcript part. -/
def txtMime : List Char := "text/plain".toList

/-- The multipart request built by `upload_file` for a parsed pair: three
text fields then the two file parts, exactly in source order. -/
def requestFor (mp3_filename txt_filename timestamp talkgroup_id radio_id : List Char)
    (mp3_bytes txt_bytes : List Nat) : UploadRequest :=
  { url := uploadUrl
    apiKey := apiKeyValue
    form := [FormField.text tgFieldName talkgroup_id,
             FormField.text tsFieldName timestamp,
             FormField.text ridFieldName radio_id,
             FormField.filePart mp3PartName mp3_filename mp3Mime mp3_bytes,
             FormField.filePart txtPartName txt_filename txtMime txt_bytes] }

/-- Result of one `upload_file` invocation.  `skipped` is the silent drop on
an unparseable filename; `panicked` is an `unwrap`/`expect` failure, which
aborts the whole process; `sent` records the single outbound request
together with the network's success/failure answer. -/
inductive UploadOutcome where
  | skipped
  | panicked
  | sent (req : UploadRequest) (ok : Bool)
deriving DecidableEq

/-- Embedding of `upload_file` (src/uploader.rs lines 57-84): takes the mp3
filename (`unwrap`), parses it (silently returning on no match), reads both
files (`expect`: a failed read panics before any network activity), builds
the multipart form and performs exactly one POST, whose network-level
success is the oracle's answer and does not alter control flow. -/
def upload_file (fs : FS) (net : UploadRequest → Bool) (mp3_path txt_path : FsPath) :
    UploadOutcome :=
  match mp3_path.getLast? with
  | none => UploadOutcome.panicked
  | some filename =>
    match parse_filename filename with
    | none => UploadOutcome.skipped
    | some (timestamp, talkgroup_id, radio_id) =>
      match fs.fsRead mp3_path with
      | none => UploadOutcome.panicked
      | some mp3_bytes =>
        match fs.fsRead txt_path with
        | none => UploadOutcome.panicked
        | some txt_bytes =>
          match txt_path.getLast? with
          | none => UploadOutcome.panicked
          | some txt_filename =>
            let req := requestFor filename txt_filename timestamp talkgroup_id radio_id
              mp3_bytes txt_bytes
            UploadOutcome.sent req (net req)

/-- Processing of a single path of a notification (src/uploader.rs lines
34-41): filter, resolve, and only then upload.  `none` means the path was
filtered out or did not resolve, so `upload_file` was never invoked. -/
def processPath (fs : FS) (net : UploadRequest → Bool) (root p : FsPath) :
    Option UploadOutcome :=
  if should_process_file fs p root then
    match extract_file_info fs p with
    | some (mp3_path, txt_path) => some (upload_file fs net mp3_path txt_path)
    | none => none
  else none

/-- Whether an outcome is the process-aborting panic. -/
def isPanic : UploadOutcome → Bool
  | UploadOutcome.panicked => true
  | _ => false

/-- Processes the paths of one notification in order; a panic aborts the
event loop, so later paths are not reached.  Returns the outcomes of the
`upload_file` invocations that happened and whether the process crashed. -/
def processPaths (fs : FS) (net : UploadRequest → Bool) (root : FsPath) :
    List FsPath → List UploadOutcome × Bool
  | [] => ([], false)
  | p :: rest =>
    match processPath fs net root p with
    | none => processPaths fs net root rest
    | some o =>
      if isPanic o then ([o], true)
      else
        let r := processPaths fs net root rest
        (o :: r.1, r.2)

/-- One message from the watch layer: a notification carrying paths, or a
watch-layer error (the `Err` arm of the event, which is only logged). -/
inductive WatchMsg where
  | ok (paths : List FsPath)
  | fail

/-- Embedding of the event loop of `main` (src/uploader.rs lines 30-45):
drains messages in order, pairing each with the filesystem state at the
time it is handled; watch-layer errors are skipped, and a panic while
handling a notification terminates the whole run. -/
def runLoop (net : UploadRequest → Bool) (root : FsPath) :
    List (FS × WatchMsg) → List UploadOutcome × Bool
  | [] => ([], false)
  | (_, WatchMsg.fail) :: rest => runLoop net root rest
  | (fs, WatchMsg.ok paths) :: rest =>
    let r := processPaths fs net root paths
    if r.2 then r
    else
      let r2 := runLoop net root rest
      (r.1 ++ r2.1, r2.2)

/- ### Basic facts about characters and scanning -/

theorem digit_ne_us {c : Char} (h : c.isDigit = true) : c ≠ '_' := by
  intro hc
  rw [hc] at h
  exact absurd h (by decide)

theorem digit_ne_nl {c : Char} (h : c.isDigit = true) : c ≠ '\n' := by
  intro hc
  rw [hc] at h
  exact absurd h (by decide)

theorem isPrefixOf_append_self (l t : List Char) : l.isPrefixOf (l ++ t) = true := by
  induction l with
  | nil => simp
  | cons a as ih => simp [List.isPrefixOf_cons₂, ih]

theorem takeWhile_append_stop {α : Type} (p : α → Bool) (g t : List α)
    (hg : ∀ c ∈ g, p c = true) (ht : ∀ c cs, t = c :: cs → p c = false) :
    (g ++ t).takeWhile p = g := by
  induction g with
  | nil =>
    simp only [List.nil_append]
    cases t with
    | nil => rfl
    | cons c cs => simp [List.takeWhile_cons, ht c cs rfl]
  | cons a as ih =>
    have ha : p a = true := hg a (List.mem_cons_self a as)
    simp [List.takeWhile_cons, ha, ih (fun c hc => hg c (List.mem_cons_of_mem a hc))]

theorem dropWhile_append_stop {α : Type} (p : α → Bool) (g t : List α)
    (hg : ∀ c ∈ g, p c = true) (ht : ∀ c cs, t = c :: cs → p c = false) :
    (g ++ t).dropWhile p = t := by
  induction g with
  | nil =>
    simp only [List.nil_append]
    cases t with
    | nil => rfl
    | cons c cs => simp [List.dropWhile_cons, ht c cs rfl]
  | cons a as ih =>
    have ha : p a = true := hg a (List.mem_cons_self a as)
    simp [List.dropWhile_cons, ha, ih (fun c hc => hg c (List.mem_cons_of_mem a hc))]

/- ### Behaviour of the tail matcher `matchTO` -/

theorem matchTO_not_us {c : Char} (t : List Char) (h : c ≠ '_') :
    matchTO (c :: t) = none := by
  have hb : ('_' == c) = false := beq_eq_false_iff_ne.mpr (Ne.symm h)
  have hp : markerTO.isPrefixOf (c :: t) = false := by
    simp [markerTO, List.isPrefixOf_cons₂, hb]
  simp [matchTO, hp]

theorem matchTO_us_not_us {c : Char} (t : List Char) (h : c ≠ '_') :
    matchTO ('_' :: c :: t) = none := by
  have hb : ('_' == c) = false := beq_eq_false_iff_ne.mpr (Ne.symm h)
  have hp : markerTO.isPrefixOf ('_' :: c :: t) = false := by
    simp [markerTO, List.isPrefixOf_cons₂, hb]
  simp [matchTO, hp]

theorem head_not_digit_of_markerFROM (x : List Char) :
    ∀ c cs, markerFROM ++ x = c :: cs → Char.isDigit c = false := by
  intro c cs h
  have hc : '_' = c := by
    have h' : '_' :: ('F' :: 'R' :: 'O' :: 'M' :: '_' :: x) = c :: cs := h
    injection h' with h1 _
  rw [← hc]
  decide

theorem matchTO_withFROM (tg rid u : List Char) (htg : tg ≠ [])
    (htgd : ∀ c ∈ tg, Char.isDigit c = true)
    (hrid : rid ≠ []) (hridd : ∀ c ∈ rid, Char.isDigit c = true)
    (hu : ∀ c cs, u = c :: cs → Char.isDigit c = false) :
    matchTO (markerTO ++ (tg ++ (markerFROM ++ (rid ++ u)))) = some (tg, some rid) := by
  have hpre : markerTO.isPrefixOf (markerTO ++ (tg ++ (markerFROM ++ (rid ++ u)))) = true :=
    isPrefixOf_append_self _ _
  have hdrop : (markerTO ++ (tg ++ (markerFROM ++ (rid ++ u)))).drop 5
      = tg ++ (markerFROM ++ (rid ++ u)) := List.drop_left' rfl
  have htw : (tg ++ (markerFROM ++ (rid ++ u))).takeWhile Char.isDigit = tg :=
    takeWhile_append_stop _ _ _ htgd (head_not_digit_of_markerFROM _)
  have hdw : (tg ++ (markerFROM ++ (rid ++ u))).dropWhile Char.isDigit
      = markerFROM ++ (rid ++ u) :=
    dropWhile_append_stop _ _ _ htgd (head_not_digit_of_markerFROM _)
  have hpre2 : markerFROM.isPrefixOf (markerFROM ++ (rid ++ u)) = true :=
    isPrefixOf_append_self _ _
  have hdrop2 : (markerFROM ++ (rid ++ u)).drop 6 = rid ++ u := List.drop_left' rfl
  have htw2 : (rid ++ u).takeWhile Char.isDigit = rid :=
    takeWhile_append_stop _ _ _ hridd hu
  simp only [matchTO, hpre, if_true, hdrop, htw, hdw, hpre2, hdrop2, htw2,
    if_neg htg, if_neg hrid]

theorem matchTO_noFROM (tg u : List Char) (htg : tg ≠ [])
    (htgd : ∀ c ∈ tg, Char.isDigit c = true)
    (hu : ∀ c cs, u = c :: cs → Char.isDigit c = false)
    (hpf : markerFROM.isPrefixOf u = false) :
    matchTO (markerTO ++ (tg ++ u)) = some (tg, none) := by
  have hpre : markerTO.isPrefixOf (markerTO ++ (tg ++ u)) = true :=
    isPrefixOf_append_self _ _
  have hdrop : (markerTO ++ (tg ++ u)).drop 5 = tg ++ u := List.drop_left' rfl
  have htw : (tg ++ u).takeWhile Char.isDigit = tg :=
    takeWhile_append_stop _ _ _ htgd hu
  have hdw : (tg ++ u).dropWhile Char.isDigit = u :=
    dropWhile_append_stop _ _ _ htgd hu
  simp only [matchTO, hpre, if_true, hdrop, htw, hdw, hpf, if_neg htg,
    Bool.false_eq_true, if_false]

/- ### Behaviour of the greedy scanner `dotStarTO` -/

theorem orElseO_none_right {α : Type} (a : Option α) : orElseO a none = a := by
  cases a <;> rfl

theorem dotStarTO_cons_some {c : Char} {t : List Char} {v : List Char × Option (List Char)}
    (h1 : c ≠ '\n') (h2 : dotStarTO t = some v) : dotStarTO (c :: t) = some v := by
  simp [dotStarTO, if_neg h1, h2, orElseO]

theorem dotStarTO_cons_none {c : Char} {t : List Char} ( _h1 : c ≠ '\n')
    (h2 : dotStarTO t = none) (h3 : matchTO (c :: t) = none) :
    dotStarTO (c :: t) = none := by
  simp [dotStarTO, h2, h3, orElseO]

theorem dotStarTO_found (a t : List Char) (v : List Char × Option (List Char))
    (ha : ∀ c ∈ a, c ≠ '\n') (h : dotStarTO t = some v) :
    dotStarTO (a ++ t) = some v := by
  induction a with
  | nil => simpa using h
  | cons c as ih =>
    exact dotStarTO_cons_some (ha c (List.mem_cons_self c as))
      (ih fun d hd => ha d (List.mem_cons_of_mem c hd))

theorem dotStarTO_digits (g t : List Char) (hg : ∀ c ∈ g, Char.isDigit c = true) :
    dotStarTO (g ++ t) = dotStarTO t := by
  induction g with
  | nil => simp
  | cons c as ih =>
    have hd := hg c (List.mem_cons_self c as)
    have ih' := ih fun d hd' => hg d (List.mem_cons_of_mem c hd')
    have h3 : matchTO (c :: (as ++ t)) = none := matchTO_not_us _ (digit_ne_us hd)
    show dotStarTO (c :: (as ++ t)) = dotStarTO t
    rw [dotStarTO, if_neg (digit_ne_nl hd), h3, orElseO_none_right, ih']

theorem dotStarTO_markerFROM_none (x : List Char) (h1 : dotStarTO x = none)
    (h2 : matchTO ('_' :: x) = none) : dotStarTO (markerFROM ++ x) = none := by
  have s6 : dotStarTO ('_' :: x) = none := dotStarTO_cons_none (by decide) h1 h2
  have s5 : dotStarTO ('M' :: '_' :: x) = none :=
    dotStarTO_cons_none (by decide) s6 (matchTO_not_us _ (by decide))
  have s4 : dotStarTO ('O' :: 'M' :: '_' :: x) = none :=
    dotStarTO_cons_none (by decide) s5 (matchTO_not_us _ (by decide))
  have s3 : dotStarTO ('R' :: 'O' :: 'M' :: '_' :: x) = none :=
    dotStarTO_cons_none (by decide) s4 (matchTO_not_us _ (by decide))
  have s2 : dotStarTO ('F' :: 'R' :: 'O' :: 'M' :: '_' :: x) = none :=
    dotStarTO_cons_none (by decide) s3 (matchTO_not_us _ (by decide))
  exact dotStarTO_cons_none (by decide) s2 (matchTO_us_not_us _ (by decide))

theorem dotStarTO_markerTO_eq (x : List Char) (hx : dotStarTO x = none)
    (h2 : matchTO ('_' :: x) = none) :
    dotStarTO (markerTO ++ x) = matchTO (markerTO ++ x) := by
  have s4 : dotStarTO ('_' :: x) = none := dotStarTO_cons_none (by decide) hx h2
  have s3 : dotStarTO ('O' :: '_' :: x) = none :=
    dotStarTO_cons_none (by decide) s4 (matchTO_not_us _ (by decide))
  have s2 : dotStarTO ('T' :: 'O' :: '_' :: x) = none :=
    dotStarTO_cons_none (by decide) s3 (matchTO_not_us _ (by decide))
  have s1 : dotStarTO ('_' :: 'T' :: 'O' :: '_' :: x) = none :=
    dotStarTO_cons_none (by decide) s2 (matchTO_us_not_us _ (by decide))
  show dotStarTO ('_' :: '_' :: 'T' :: 'O' :: '_' :: x) = _
  rw [dotStarTO, if_neg (by decide), s1, orElseO_none]
  rfl

theorem head_not_digit_mp3 : ∀ c cs, mp3Ext = c :: cs → Char.isDigit c = false := by
  intro c cs h
  have h' : '.' :: ['m', 'p', '3'] = c :: cs := h
  injection h' with h1 _
  rw [← h1]
  decide

/-- The greedy scan over the canonical `__TO_<tg>_FROM_<rid>.mp3` tail finds
exactly the two digit captures. -/
theorem dotStarTO_canon_withFROM (tg rid : List Char) (htg : tg ≠ [])
    (htgd : ∀ c ∈ tg, Char.isDigit c = true)
    (hrid : rid ≠ []) (hridd : ∀ c ∈ rid, Char.isDigit c = true) :
    dotStarTO (markerTO ++ (tg ++ (markerFROM ++ (rid ++ mp3Ext)))) = some (tg, some rid) := by
  have hx0 : dotStarTO mp3Ext = none := by decide
  have hridmp3 : dotStarTO (rid ++ mp3Ext) = none := by
    rw [dotStarTO_digits _ _ hridd]; exact hx0
  have hmtch : matchTO ('_' :: (rid ++ mp3Ext)) = none := by
    cases rid with
    | nil => exact absurd rfl hrid
    | cons r rs =>
      exact matchTO_us_not_us _ (digit_ne_us (hridd r (List.mem_cons_self r rs)))
  have hfrom : dotStarTO (markerFROM ++ (rid ++ mp3Ext)) = none :=
    dotStarTO_markerFROM_none _ hridmp3 hmtch
  have htgtail : dotStarTO (tg ++ (markerFROM ++ (rid ++ mp3Ext))) = none := by
    rw [dotStarTO_digits _ _ htgd]; exact hfrom
  have hm2 : matchTO ('_' :: (tg ++ (markerFROM ++ (rid ++ mp3Ext)))) = none := by
    cases tg with
    | nil => exact absurd rfl htg
    | cons g gs =>
      exact matchTO_us_not_us _ (digit_ne_us (htgd g (List.mem_cons_self g gs)))
  rw [dotStarTO_markerTO_eq _ htgtail hm2]
  exact matchTO_withFROM tg rid mp3Ext htg htgd hrid hridd head_not_digit_mp3

/-- The greedy scan over the canonical `__TO_<tg>.mp3` tail (no `_FROM_`
group) finds the talkgroup capture and no radio-id capture. -/
theorem dotStarTO_canon_noFROM (tg : List Char) (htg : tg ≠ [])
    (htgd : ∀ c ∈ tg, Char.isDigit c = true) :
    dotStarTO (markerTO ++ (tg ++ mp3Ext)) = some (tg, none) := by
  have hx0 : dotStarTO mp3Ext = none := by decide
  have htgtail : dotStarTO (tg ++ mp3Ext) = none := by
    rw [dotStarTO_digits _ _ htgd]; exact hx0
  have hm2 : matchTO ('_' :: (tg ++ mp3Ext)) = none := by
    cases tg with
    | nil => exact absurd rfl htg
    | cons g gs =>
      exact matchTO_us_not_us _ (digit_ne_us (htgd g (List.mem_cons_self g gs)))
  rw [dotStarTO_markerTO_eq _ htgtail hm2]
  exact matchTO_noFROM tg mp3Ext htg htgd head_not_digit_mp3 (by decide)

/- ### The timestamp matcher and the full parse -/

theorem matchTimestamp_eq (date time rest : List Char)
    (hd8 : date.length = 8) (hdd : ∀ c ∈ date, Char.isDigit c = true)
    (ht6 : time.length = 6) (htd : ∀ c ∈ time, Char.isDigit c = true) :
    matchTimestamp (date ++ '_' :: (time ++ rest)) = some (date ++ '_' :: time, rest) := by
  have htake : (date ++ '_' :: (time ++ rest)).take 8 = date := List.take_left' hd8
  have hdrop : (date ++ '_' :: (time ++ rest)).drop 8 = '_' :: (time ++ rest) :=
    List.drop_left' hd8
  have htake2 : (time ++ rest).take 6 = time := List.take_left' ht6
  have hdrop2 : (time ++ rest).drop 6 = rest := List.drop_left' ht6
  have hc1 : ((date.length == 8) && date.all Char.isDigit) = true := by
    rw [hd8]
    simpa [List.all_eq_true] using hdd
  have hc2 : ((time.length == 6) && time.all Char.isDigit) = true := by
    rw [ht6]
    simpa [List.all_eq_true] using htd
  simp only [matchTimestamp, htake, hdrop, hc1, if_true, List.head?_cons, List.tail_cons,
    htake2, hdrop2, hc2]
  simp

theorem findMatch_cons_of_matchAt {c : Char} {t : List Char}
    {v : List Char × List Char × Option (List Char)} (h : matchAt (c :: t) = some v) :
    findMatch (c :: t) = some v := by
  simp [findMatch, h, orElseO]

theorem parse_of_findMatch {f ts tg : List Char} {rid : Option (List Char)}
    (h : findMatch f = some (ts, tg, rid)) :
    parse_filename f = some (ts, tg, rid.getD defaultRadioId) := by
  simp [parse_filename, h]

/-- Full-grammar parsing: a filename
`<8-digit-date>_<6-digit-time><anything>__TO_<tg>_FROM_<rid>.mp3`, with
`<anything>` newline-free, parses to exactly that decomposition's
timestamp, talkgroup id and radio id. -/
theorem parse_filename_withFROM (date time anything tg rid : List Char)
    (hd8 : date.length = 8) (hdd : ∀ c ∈ date, Char.isDigit c = true)
    (ht6 : time.length = 6) (htd : ∀ c ∈ time, Char.isDigit c = true)
    (hnl : ∀ c ∈ anything, c ≠ '\n')
    (htg : tg ≠ []) (htgd : ∀ c ∈ tg, Char.isDigit c = true)
    (hrid : rid ≠ []) (hridd : ∀ c ∈ rid, Char.isDigit c = true) :
    parse_filename
        (date ++ '_' :: (time ++ (anything ++ (markerTO ++ (tg ++ (markerFROM ++ (rid ++ mp3Ext)))))))
      = some (date ++ '_' :: time, tg, rid) := by
  have hds : dotStarTO (anything ++ (markerTO ++ (tg ++ (markerFROM ++ (rid ++ mp3Ext)))))
      = some (tg, some rid) :=
    dotStarTO_found _ _ _ hnl (dotStarTO_canon_withFROM tg rid htg htgd hrid hridd)
  have hmt := matchTimestamp_eq date time
    (anything ++ (markerTO ++ (tg ++ (markerFROM ++ (rid ++ mp3Ext))))) hd8 hdd ht6 htd
  have hma : matchAt
      (date ++ '_' :: (time ++ (anything ++ (markerTO ++ (tg ++ (markerFROM ++ (rid ++ mp3Ext)))))))
      = some (date ++ '_' :: time, tg, some rid) := by
    simp [matchAt, hmt, hds]
  obtain ⟨c, ds, rfl⟩ : ∃ c ds, date = c :: ds := by
    cases date with
    | nil => simp at hd8
    | cons c ds => exact ⟨c, ds, rfl⟩
  have hma' : matchAt
      (c :: (ds ++ '_' :: (time ++ (anything ++ (markerTO ++ (tg ++ (markerFROM ++ (rid ++ mp3Ext))))))))
      = some ((c :: ds) ++ '_' :: time, tg, some rid) := hma
  exact parse_of_findMatch (findMatch_cons_of_matchAt hma')

/-- Default-grammar parsing: a filename
`<8-digit-date>_<6-digit-time><anything>__TO_<tg>.mp3` (no `_FROM_` group),
with `<anything>` newline-free, parses with the radio id defaulted to the
fixed sentinel `123456`. -/
theorem parse_filename_noFROM (date time anything tg : List Char)
    (hd8 : date.length = 8) (hdd : ∀ c ∈ date, Char.isDigit c = true)
    (ht6 : time.length = 6) (htd : ∀ c ∈ time, Char.isDigit c = true)
    (hnl : ∀ c ∈ anything, c ≠ '\n')
    (htg : tg ≠ []) (htgd : ∀ c ∈ tg, Char.isDigit c = true) :
    parse_filename (date ++ '_' :: (time ++ (anything ++ (markerTO ++ (tg ++ mp3Ext)))))
      = some (date ++ '_' :: time, tg, defaultRadioId) := by
  have hds : dotStarTO (anything ++ (markerTO ++ (tg ++ mp3Ext))) = some (tg, none) :=
    dotStarTO_found _ _ _ hnl (dotStarTO_canon_noFROM tg htg htgd)
  have hmt := matchTimestamp_eq date time (anything ++ (markerTO ++ (tg ++ mp3Ext)))
    hd8 hdd ht6 htd
  have hma : matchAt (date ++ '_' :: (time ++ (anything ++ (markerTO ++ (tg ++ mp3Ext)))))
      = some (date ++ '_' :: time, tg, none) := by
    simp [matchAt, hmt, hds]
  obtain ⟨c, ds, rfl⟩ : ∃ c ds, date = c :: ds := by
    cases date with
    | nil => simp at hd8
    | cons c ds => exact ⟨c, ds, rfl⟩
  have hma' : matchAt (c :: (ds ++ '_' :: (time ++ (anything ++ (markerTO ++ (tg ++ mp3Ext))))))
      = some ((c :: ds) ++ '_' :: time, tg, none) := hma
  exact parse_of_findMatch (findMatch_cons_of_matchAt hma')

/- ### The filename grammar, and soundness/completeness of the parser -/

theorem parent_concat (dir : FsPath) (name : Component) :
    parent (dir ++ [name]) = some dir := by
  unfold parent
  rw [if_neg (by simp), List.dropLast_concat]

/-- Evaluation of pair resolution on a path with parent `dir` and file name
`name`: the pair of sibling paths when both exist, `none` otherwise. -/
theorem extract_file_info_concat (fs : FS) (dir : FsPath) (name : Component) :
    extract_file_info fs (dir ++ [name]) =
      (if fs.fsExists (dir ++ [stemOf name ++ mp3Ext])
          && fs.fsExists (dir ++ [stemOf name ++ txtExt])
       then some (dir ++ [stemOf name ++ mp3Ext], dir ++ [stemOf name ++ txtExt])
       else none) := by
  simp only [extract_file_info, List.getLast?_concat, parent_concat]

theorem stemOf_append_ext (s e : List Char) (hs : s ≠ []) (he : ∀ c ∈ e, c ≠ '.') :
    stemOf (s ++ '.' :: e) = s := by
  have hrev : (s ++ '.' :: e).reverse = (e.reverse ++ ['.']) ++ s.reverse := by
    simp
  have htw : ((e.reverse ++ ['.']) ++ s.reverse).takeWhile (fun c => c != '.') = e.reverse := by
    rw [List.append_assoc]
    exact takeWhile_append_stop _ _ _
      (fun c hc => by simpa using he c (List.mem_reverse.mp hc))
      (by intro c cs h; injection h with h1 _; rw [← h1]; decide)
  simp only [stemOf, hrev, htw]
  have hlen : e.reverse.length ≠ ((e.reverse ++ ['.']) ++ s.reverse).length := by
    simp only [List.length_reverse, List.length_append, List.length_cons]
    omega
  rw [if_neg hlen]
  have hdrop : ((e.reverse ++ ['.']) ++ s.reverse).drop (e.reverse.length + 1) = s.reverse :=
    List.drop_left' (by simp)
  rw [hdrop, if_neg (by simpa using hs)]
  exact List.reverse_reverse s

/- ### Pipeline evaluation lemmas -/

theorem upload_file_sent {fs : FS} (net : UploadRequest → Bool) {m t : FsPath}
    {mname tname : Component} {ts tg rid : List Char} {bm bt : List Nat}
    (h5 : m.getLast? = some mname) (h6 : parse_filename mname = some (ts, tg, rid))
    (h7 : fs.fsRead m = some bm) (h8 : fs.fsRead t = some bt)
    (h9 : t.getLast? = some tname) :
    upload_file fs net m t =
      UploadOutcome.sent (requestFor mname tname ts tg rid bm bt)
        (net (requestFor mname tname ts tg rid bm bt)) := by
  simp only [upload_file, h5, h6, h7, h8, h9]

theorem upload_file_read_panic {fs : FS} (net : UploadRequest → Bool) {m t : FsPath}
    {mname : Component} {ts tg rid : List Char}
    (h5 : m.getLast? = some mname) (h6 : parse_filename mname = some (ts, tg, rid))
    (h7 : fs.fsRead m = none ∨ ∃ bm, fs.fsRead m = some bm ∧ fs.fsRead t = none) :
    upload_file fs net m t = UploadOutcome.panicked := by
  rcases h7 with h7 | ⟨bm, h7, h7'⟩
  · simp only [upload_file, h5, h6, h7]
  · simp only [upload_file, h5, h6, h7, h7']

theorem processPath_eq_upload {fs : FS} (net : UploadRequest → Bool) (root : FsPath)
    {p mp tp : FsPath}
    (h1 : should_process_file fs p root = true)
    (h2 : extract_file_info fs p = some (mp, tp)) :
    processPath fs net root p = some (upload_file fs net mp tp) := by
  simp only [processPath, h1, if_true, h2]

theorem processPath_none_of_extract_none {fs : FS} {net : UploadRequest → Bool}
    {root p : FsPath} (h : extract_file_info fs p = none) :
    processPath fs net root p = none := by
  unfold processPath
  split
  · rw [h]
  · rfl

/- ### Concrete fixtures used by the witnesses -/

/-- Watched-root directory component of the test fixtures. -/
def compWatch : Component := "watch".toList

/-- Subdirectory component of the test fixtures. -/
def compSub : Component := "sub".toList

/-- The watched root of the test fixtures. -/
def rootW : FsPath := [compWatch]

/-- Stem of the first fixture pair (full grammar, with `_FROM_`). -/
def stem1 : Component := "20240131_235901_unit1__TO_4112_FROM_9981".toList

/-- The mp3 half of the first fixture pair. -/
def mp3P1 : FsPath := [compWatch, compSub, stem1 ++ mp3Ext]

/-- The txt half of the first fixture pair. -/
def txtP1 : FsPath := [compWatch, compSub, stem1 ++ txtExt]

/-- A filesystem in which the first fixture pair exists and is readable. -/
def fsW1 : FS :=
  { fsExists := fun p => p == mp3P1 || p == txtP1
    isFile := fun p => p == mp3P1 || p == txtP1
    fsRead := fun p => if p == mp3P1 then some [1] else if p == txtP1 then some [2] else none }

/-- A network oracle that accepts every request. -/
def netW : UploadRequest → Bool := fun _ => true

/-- Timestamp parsed out of the first fixture pair. -/
def ts1 : List Char := "20240131_235901".toList

/-- Talkgroup id parsed out of the first fixture pair. -/
def tg1 : List Char := "4112".toList

/-- Radio id parsed out of the first fixture pair. -/
def rid1 : List Char := "9981".toList

/- ### The claims -/

/-- C1: for a notification whose path passes the eligibility filter,
resolves to an existing `.mp3`/`.txt` pair, and whose primary filename
parses (and whose reads succeed), the pipeline performs exactly one upload
attempt; the pipeline keeps no deduplication state, so when both sidecar
files of a single physical pair each generate their own eligible,
resolvable notification the very same request is sent twice, once per
notification. -/
theorem c1_one_upload_attempt_per_notification (fs : FS) (net : UploadRequest → Bool)
    (root p1 p2 m t : FsPath) (mname tname : Component)
    (ts tg rid : List Char) (bm bt : List Nat)
    (h1 : should_process_file fs p1 root = true)
    (h2 : extract_file_info fs p1 = some (m, t))
    (h3 : should_process_file fs p2 root = true)
    (h4 : extract_file_info fs p2 = some (m, t))
    (h5 : m.getLast? = some mname)
    (h6 : parse_filename mname = some (ts, tg, rid))
    (h7 : fs.fsRead m = some bm) (h8 : fs.fsRead t = some bt)
    (h9 : t.getLast? = some tname) :
    processPaths fs net root [p1] =
      ([UploadOutcome.sent (requestFor mname tname ts tg rid bm bt)
          (net (requestFor mname tname ts tg rid bm bt))], false) ∧
    runLoop net root [(fs, WatchMsg.ok [p1]), (fs, WatchMsg.ok [p2])] =
      ([UploadOutcome.sent (requestFor mname tname ts tg rid bm bt)
          (net (requestFor mname tname ts tg rid bm bt)),
        UploadOutcome.sent (requestFor mname tname ts tg rid bm bt)
          (net (requestFor mname tname ts tg rid bm bt))], false) := by
  have hu := upload_file_sent net h5 h6 h7 h8 h9
  have hp1 := processPath_eq_upload net root h1 h2
  have hp2 := processPath_eq_upload net root h3 h4
  rw [hu] at hp1 hp2
  constructor
  · simp [processPaths, hp1, isPanic]
  · simp [runLoop, processPaths, hp1, hp2, isPanic]

/-- Witness for C1 at the concrete fixture pair: the `.mp3` and `.txt`
notifications for one physical pair produce two identical uploads. -/
theorem c1_witness :
    processPaths fsW1 netW rootW [mp3P1] =
      ([UploadOutcome.sent
          (requestFor (stem1 ++ mp3Ext) (stem1 ++ txtExt) ts1 tg1 rid1 [1] [2])
          (netW (requestFor (stem1 ++ mp3Ext) (stem1 ++ txtExt) ts1 tg1 rid1 [1] [2]))],
        false) ∧
    runLoop netW rootW [(fsW1, WatchMsg.ok [mp3P1]), (fsW1, WatchMsg.ok [txtP1])] =
      ([UploadOutcome.sent
          (requestFor (stem1 ++ mp3Ext) (stem1 ++ txtExt) ts1 tg1 rid1 [1] [2])
          (netW (requestFor (stem1 ++ mp3Ext) (stem1 ++ txtExt) ts1 tg1 rid1 [1] [2])),
        UploadOutcome.sent
          (requestFor (stem1 ++ mp3Ext) (stem1 ++ txtExt) ts1 tg1 rid1 [1] [2])
          (netW (requestFor (stem1 ++ mp3Ext) (stem1 ++ txtExt) ts1 tg1 rid1 [1] [2]))],
        false) :=
  c1_one_upload_attempt_per_notification fsW1 netW rootW mp3P1 txtP1 mp3P1 txtP1
    (stem1 ++ mp3Ext) (stem1 ++ txtExt) ts1 tg1 rid1 [1] [2]
    (by decide) (by decide) (by decide) (by decide) (by decide) (by decide)
    (by decide) (by decide) (by decide)

/-- C2: for any input path, pair resolution computes the filename stem and
parent directory and returns a pair exactly when both sibling paths
`<stem>.mp3` and `<stem>.txt` (same parent directory, same stem) exist in
the current filesystem state; when it returns none, `upload_file` is never
invoked for that notification, so no network call occurs. -/
theorem c2_pair_resolution (fs : FS) (net : UploadRequest → Bool) (root dir : FsPath)
    (name : Component) :
    extract_file_info fs (dir ++ [name]) =
      (if fs.fsExists (dir ++ [stemOf name ++ mp3Ext])
          && fs.fsExists (dir ++ [stemOf name ++ txtExt])
       then some (dir ++ [stemOf name ++ mp3Ext], dir ++ [stemOf name ++ txtExt])
       else none) ∧
    (extract_file_info fs (dir ++ [name]) = none →
      processPath fs net root (dir ++ [name]) = none) :=
  ⟨extract_file_info_concat fs dir name, fun h => processPath_none_of_extract_none h⟩

/-- A filesystem in which only the mp3 half of the first fixture pair
exists: its txt sibling is absent. -/
def fsW2 : FS :=
  { fsExists := fun p => p == mp3P1
    isFile := fun p => p == mp3P1
    fsRead := fun _ => none }

/-- Witness for C2: with the txt sibling absent, resolving the mp3
notification yields no pair and the pipeline performs no upload call. -/
theorem c2_witness :
    processPath fsW2 netW rootW ([compWatch, compSub] ++ [stem1 ++ mp3Ext]) = none :=
  (c2_pair_resolution fsW2 netW rootW [compWatch, compSub] (stem1 ++ mp3Ext)).2 (by decide)

/-- A filename of the claimed full grammar shape whose `<anything>` region
contains a newline. -/
def badNl3 : List Char := "20240131_235901_unit\n1__TO_4112_FROM_9981.mp3".toList

/-- C3 (counterexample): the claim asserts every filename of the form
`<8-digit-date>_<6-digit-time><anything>__TO_<digits>_FROM_<digits>.mp3`
parses to its decomposition, but the regex wildcard `.` does not cross a
newline, so this grammar-shaped filename (with a newline inside
`<anything>`) does not parse at all. -/
theorem c3_counterexample : parse_filename badNl3 = none := by decide

/-- Date component of the parser witnesses. -/
def dateW : List Char := "20240131".toList

/-- Time component of the parser witnesses. -/
def timeW : List Char := "235901".toList

/-- The `<anything>` filler of the C3 witness. -/
def anyW : List Char := "_unit1".toList

/-- C3 (amended): for every filename of the form
`<8-digit-date>_<6-digit-time><anything>__TO_<digits>_FROM_<digits>.mp3`
in which `<anything>` contains no newline, parsing returns exactly the
triple (date_time, digits after `__TO_`, digits after `_FROM_`) with no
defaulting. -/
theorem c3_parse_full_grammar (date time anything tg rid : List Char)
    (hd8 : date.length = 8) (hdd : ∀ c ∈ date, Char.isDigit c = true)
    (ht6 : time.length = 6) (htd : ∀ c ∈ time, Char.isDigit c = true)
    (hnl : ∀ c ∈ anything, c ≠ '\n')
    (htg : tg ≠ []) (htgd : ∀ c ∈ tg, Char.isDigit c = true)
    (hrid : rid ≠ []) (hridd : ∀ c ∈ rid, Char.isDigit c = true) :
    parse_filename
        (date ++ '_' :: (time ++ (anything ++ (markerTO ++ (tg ++ (markerFROM ++ (rid ++ mp3Ext)))))))
      = some (date ++ '_' :: time, tg, rid) :=
  parse_filename_withFROM date time anything tg rid hd8 hdd ht6 htd hnl htg htgd hrid hridd

/-- Witness for C3 at the claim's own example filename
`20240131_235901_unit1__TO_4112_FROM_9981.mp3`. -/
theorem c3_witness :
    parse_filename
        (dateW ++ '_' :: (timeW ++ (anyW ++ (markerTO ++ (tg1 ++ (markerFROM ++ (rid1 ++ mp3Ext)))))))
      = some (dateW ++ '_' :: timeW, tg1, rid1) :=
  c3_parse_full_grammar dateW timeW anyW tg1 rid1 (by decide) (by decide) (by decide)
    (by decide) (by decide) (by decide) (by decide) (by decide) (by decide)

/-- A filename of the claimed no-`_FROM_` grammar shape whose `<anything>`
region contains a newline. -/
def badNl4 : List Char := "20240131_235901_x\ny__TO_4112.mp3".toList

/-- C4 (counterexample): the claim asserts every grammar-shaped filename
without the `_FROM_` suffix parses with the defaulted radio id, but a
newline inside `<anything>` blocks the regex wildcard `.`, so this
grammar-shaped filename does not parse at all. -/
theorem c4_counterexample : parse_filename badNl4 = none := by decide

/-- C4 (amended): for every filename of the form
`<8-digit-date>_<6-digit-time><anything>__TO_<digits>.mp3` (no `_FROM_`
group) in which `<anything>` contains no newline, parsing succeeds and the
radio id is the fixed sentinel `123456`. -/
theorem c4_parse_default_radio (date time anything tg : List Char)
    (hd8 : date.length = 8) (hdd : ∀ c ∈ date, Char.isDigit c = true)
    (ht6 : time.length = 6) (htd : ∀ c ∈ time, Char.isDigit c = true)
    (hnl : ∀ c ∈ anything, c ≠ '\n')
    (htg : tg ≠ []) (htgd : ∀ c ∈ tg, Char.isDigit c = true) :
    parse_filename (date ++ '_' :: (time ++ (anything ++ (markerTO ++ (tg ++ mp3Ext)))))
      = some (date ++ '_' :: time, tg, defaultRadioId) :=
  parse_filename_noFROM date time anything tg hd8 hdd ht6 htd hnl htg htgd

/-- Witness for C4 at the claim's own example filename
`20240131_235901__TO_4112.mp3`. -/
theorem c4_witness :
    parse_filename (dateW ++ '_' :: (timeW ++ ([] ++ (markerTO ++ (tg1 ++ mp3Ext)))))
      = some (dateW ++ '_' :: timeW, tg1, defaultRadioId) :=
  c4_parse_default_radio dateW timeW [] tg1 (by decide) (by decide) (by decide)
    (by decide) (by decide) (by decide) (by decide)

/-- Stem of the markerless fixture pair. -/
def stemN : Component := "notes".toList

/-- The mp3 half of the markerless fixture pair. -/
def mp3PN : FsPath := [compWatch, compSub, stemN ++ mp3Ext]

/-- The txt half of the markerless fixture pair. -/
def txtPN : FsPath := [compWatch, compSub, stemN ++ txtExt]

/-- A filesystem in which the markerless pair fully exists. -/
def fsWN : FS :=
  { fsExists := fun p => p == mp3PN || p == txtPN
    isFile := fun p => p == mp3PN || p == txtPN
    fsRead := fun _ => none }

/-- C6: the eligibility predicate returns true iff the path's parent is not
the watched root itself and the path currently refers to a regular file; it
is a total boolean check with no error outcome, a root-level parent makes
it false regardless of file type, and a non-file (e.g. vanished) path makes
it false. -/
theorem c6_eligibility (fs : FS) (p root : FsPath) :
    (should_process_file fs p root = true ↔ (parent p ≠ some root ∧ fs.isFile p = true)) ∧
    (parent p = some root → should_process_file fs p root = false) ∧
    (fs.isFile p = false → should_process_file fs p root = false) := by
  refine ⟨?_, ?_, ?_⟩
  · simp [should_process_file]
  · intro h
    simp [should_process_file, h]
  · intro h
    simp [should_process_file, h]

/-- A file directly inside the watched root. -/
def rootLevelP : FsPath := [compWatch, stem1 ++ mp3Ext]

/-- Witness for C6: a path whose parent is the watched root itself is
never eligible. -/
theorem c6_witness : should_process_file fsW1 rootLevelP rootW = false :=
  (c6_eligibility fsW1 rootLevelP rootW).2.1 (by decide)

/-- A filesystem in which the first fixture pair exists but neither half
can be read (vanished between resolution and read). -/
def fsW7 : FS :=
  { fsExists := fun p => p == mp3P1 || p == txtP1
    isFile := fun p => p == mp3P1 || p == txtP1
    fsRead := fun _ => none }

/-- C7 (counterexample): the claim asserts a read failure between
resolution and read abandons the attempt without crashing the event loop,
but on a resolved, parseable pair whose read fails the run ends with a
panic (`expect` on `fs::read`): the loop crashes. -/
theorem c7_counterexample :
    runLoop netW rootW [(fsW7, WatchMsg.ok [mp3P1])] = ([UploadOutcome.panicked], true) := by
  decide

/-- C7 (amended): if reading either of the two files fails between
resolution and read, no request is sent — no network call carrying a
partial body is ever made — but the attempt ends in a process panic that
terminates the event loop (no subsequent message is handled) instead of
being isolated. -/
theorem c7_read_failure_no_partial_but_crash (fs : FS) (net : UploadRequest → Bool)
    (root p m t : FsPath) (mname : Component) (u v w : List Char)
    (h1 : should_process_file fs p root = true)
    (h2 : extract_file_info fs p = some (m, t))
    (h5 : m.getLast? = some mname)
    (h6 : parse_filename mname = some (u, v, w))
    (h7 : fs.fsRead m = none ∨ ∃ bm, fs.fsRead m = some bm ∧ fs.fsRead t = none) :
    ∀ rest, runLoop net root ((fs, WatchMsg.ok [p]) :: rest)
      = ([UploadOutcome.panicked], true) := by
  intro rest
  have hu := upload_file_read_panic net h5 h6 h7
  have hp := processPath_eq_upload net root h1 h2
  rw [hu] at hp
  simp [runLoop, processPaths, hp, isPanic]

/-- Witness for C7 at the concrete unreadable fixture pair. -/
theorem c7_witness :
    runLoop netW rootW ((fsW7, WatchMsg.ok [mp3P1]) :: [(fsW7, WatchMsg.ok [txtP1])])
      = ([UploadOutcome.panicked], true) :=
  c7_read_failure_no_partial_but_crash fsW7 netW rootW mp3P1 mp3P1 txtP1
    (stem1 ++ mp3Ext) ts1 tg1 rid1
    (by decide) (by decide) (by decide) (by decide) (Or.inl (by decide))
    [(fsW7, WatchMsg.ok [txtP1])]

/-- Stem of the second fixture pair (no `_FROM_` group, radio id
defaulted). -/
def stem2 : Component := "20240201_120000__TO_77".toList

/-- The mp3 half of the second fixture pair. -/
def mp3P2 : FsPath := [compWatch, compSub, stem2 ++ mp3Ext]

/-- The txt half of the second fixture pair. -/
def txtP2 : FsPath := [compWatch, compSub, stem2 ++ txtExt]

/-- A filesystem in which both fixture pairs exist but only the second is
readable: the first pair's reads fail. -/
def fsW8 : FS :=
  { fsExists := fun p => p == mp3P1 || p == txtP1 || p == mp3P2 || p == txtP2
    isFile := fun p => p == mp3P1 || p == txtP1 || p == mp3P2 || p == txtP2
    fsRead := fun p => if p == mp3P2 then some [3] else if p == txtP2 then some [4] else none }

/-- C8 (counterexample): the claim asserts no steady-state failure (which
includes read-time I/O failures) ever stops the event loop, but a read
failure on the first pair panics: the run terminates and the subsequent
independent notification — which would have uploaded successfully — is
never processed. -/
theorem c8_counterexample :
    runLoop netW rootW [(fsW8, WatchMsg.ok [mp3P1]), (fsW8, WatchMsg.ok [mp3P2])]
      = ([UploadOutcome.panicked], true) := by
  decide

/-- C8 (amended): watch-layer errors and network/HTTP upload failures are
isolated to the message or pair being processed — after a watch-layer error
and a pair whose upload the network rejects, a subsequent independent
notification is still processed and uploads successfully — but read-time
I/O failures are not isolated: they panic and stop the loop. -/
theorem c8_steady_state_isolation (fs1 fs2 : FS) (net : UploadRequest → Bool)
    (root p1 p2 m1 t1 m2 t2 : FsPath) (n1 tn1 n2 tn2 : Component)
    (u1 v1 w1 u2 v2 w2 : List Char) (a1 b1 a2 b2 : List Nat)
    (h1 : should_process_file fs1 p1 root = true)
    (h2 : extract_file_info fs1 p1 = some (m1, t1))
    (h3 : m1.getLast? = some n1)
    (h4 : parse_filename n1 = some (u1, v1, w1))
    (h5 : fs1.fsRead m1 = some a1) (h6 : fs1.fsRead t1 = some b1)
    (h7 : t1.getLast? = some tn1)
    (hnet1 : net (requestFor n1 tn1 u1 v1 w1 a1 b1) = false)
    (g1 : should_process_file fs2 p2 root = true)
    (g2 : extract_file_info fs2 p2 = some (m2, t2))
    (g3 : m2.getLast? = some n2)
    (g4 : parse_filename n2 = some (u2, v2, w2))
    (g5 : fs2.fsRead m2 = some a2) (g6 : fs2.fsRead t2 = some b2)
    (g7 : t2.getLast? = some tn2)
    (hnet2 : net (requestFor n2 tn2 u2 v2 w2 a2 b2) = true) :
    runLoop net root [(fs1, WatchMsg.fail), (fs1, WatchMsg.ok [p1]), (fs2, WatchMsg.ok [p2])]
      = ([UploadOutcome.sent (requestFor n1 tn1 u1 v1 w1 a1 b1) false,
          UploadOutcome.sent (requestFor n2 tn2 u2 v2 w2 a2 b2) true], false) := by
  have hu1 := upload_file_sent net h3 h4 h5 h6 h7
  have hu2 := upload_file_sent net g3 g4 g5 g6 g7
  have hp1 := processPath_eq_upload net root h1 h2
  have hp2 := processPath_eq_upload net root g1 g2
  rw [hu1, hnet1] at hp1
  rw [hu2, hnet2] at hp2
  simp [runLoop, processPaths, hp1, hp2, isPanic]

/-- The request the pipeline builds for the first fixture pair. -/
def req1W : UploadRequest := requestFor (stem1 ++ mp3Ext) (stem1 ++ txtExt) ts1 tg1 rid1 [1] [2]

/-- A network oracle that rejects exactly the first fixture pair's
request. -/
def netW8 : UploadRequest → Bool := fun r => !(r == req1W)

/-- A filesystem in which the second fixture pair exists and is readable. -/
def fsWp2 : FS :=
  { fsExists := fun p => p == mp3P2 || p == txtP2
    isFile := fun p => p == mp3P2 || p == txtP2
    fsRead := fun p => if p == mp3P2 then some [3] else if p == txtP2 then some [4] else none }

/-- Timestamp parsed out of the second fixture pair. -/
def ts2W : List Char := "20240201_120000".toList

/-- Talkgroup id parsed out of the second fixture pair. -/
def tg2W : List Char := "77".toList

/-- Witness for C8: a watch-layer error, then a rejected upload, then a
successful upload of an independent pair, with the loop still running. -/
theorem c8_witness :
    runLoop netW8 rootW [(fsW1, WatchMsg.fail), (fsW1, WatchMsg.ok [mp3P1]), (fsWp2, WatchMsg.ok [mp3P2])]
      = ([UploadOutcome.sent (requestFor (stem1 ++ mp3Ext) (stem1 ++ txtExt) ts1 tg1 rid1 [1] [2]) false,
          UploadOutcome.sent
            (requestFor (stem2 ++ mp3Ext) (stem2 ++ txtExt) ts2W tg2W defaultRadioId [3] [4]) true],
         false) :=
  c8_steady_state_isolation fsW1 fsWp2 netW8 rootW mp3P1 mp3P2 mp3P1 txtP1 mp3P2 txtP2
    (stem1 ++ mp3Ext) (stem1 ++ txtExt) (stem2 ++ mp3Ext) (stem2 ++ txtExt)
    ts1 tg1 rid1 ts2W tg2W defaultRadioId [1] [2] [3] [4]
    (by decide) (by decide) (by decide) (by decide) (by decide) (by decide) (by decide)
    (by decide)
    (by decide) (by decide) (by decide) (by decide) (by decide) (by decide) (by decide)
    (by decide)

/-- C9: under a successful parse and successful reads, one `upload_file`
invocation performs exactly one outbound POST, to the fixed HTTPS URL with
the static `X-API-Key` value, whose multipart body consists of exactly the
three text fields `talkgroupId`, `timestamp`, `radioId` (from the parsed
metadata) and the two file parts named `mp3` (MIME audio/mpeg, the media
bytes) and `transcription` (MIME text/plain, the transcript bytes). -/
theorem c9_request_shape (fs : FS) (net : UploadRequest → Bool) (m t : FsPath)
    (mname tname : Component) (u v w : List Char) (bm bt : List Nat)
    (h5 : m.getLast? = some mname) (h6 : parse_filename mname = some (u, v, w))
    (h7 : fs.fsRead m = some bm) (h8 : fs.fsRead t = some bt)
    (h9 : t.getLast? = some tname) :
    upload_file fs net m t =
      UploadOutcome.sent (requestFor mname tname u v w bm bt)
        (net (requestFor mname tname u v w bm bt)) ∧
    requestFor mname tname u v w bm bt =
      { url := uploadUrl
        apiKey := apiKeyValue
        form := [FormField.text tgFieldName v,
                 FormField.text tsFieldName u,
                 FormField.text ridFieldName w,
                 FormField.filePart mp3PartName mname mp3Mime bm,
                 FormField.filePart txtPartName tname txtMime bt] } :=
  ⟨upload_file_sent net h5 h6 h7 h8 h9, rfl⟩

/-- Witness for C9 at the first fixture pair. -/
theorem c9_witness :
    upload_file fsW1 netW mp3P1 txtP1 =
      UploadOutcome.sent (requestFor (stem1 ++ mp3Ext) (stem1 ++ txtExt) ts1 tg1 rid1 [1] [2])
        (netW (requestFor (stem1 ++ mp3Ext) (stem1 ++ txtExt) ts1 tg1 rid1 [1] [2])) ∧
    requestFor (stem1 ++ mp3Ext) (stem1 ++ txtExt) ts1 tg1 rid1 [1] [2] =
      { url := uploadUrl
        apiKey := apiKeyValue
        form := [FormField.text tgFieldName tg1,
                 FormField.text tsFieldName ts1,
                 FormField.text ridFieldName rid1,
                 FormField.filePart mp3PartName (stem1 ++ mp3Ext) mp3Mime [1],
                 FormField.filePart txtPartName (stem1 ++ txtExt) txtMime [2]] } :=
  c9_request_shape fsW1 netW mp3P1 txtP1 (stem1 ++ mp3Ext) (stem1 ++ txtExt)
    ts1 tg1 rid1 [1] [2]
    (by decide) (by decide) (by decide) (by decide) (by decide)

/-- C10: pair resolution is extension-insensitive: for any parent directory
`d`, non-empty stem `s` and dot-free extensions `e1`, `e2`, resolving
`d/s.e1` and `d/s.e2` gives the identical result — the pair
`(d/s.mp3, d/s.txt)` when both exist, none otherwise — so the `.mp3` and
`.txt` notifications of one pair resolve to the identical pair. -/
theorem c10_extension_insensitive (fs : FS) (d : FsPath) (s e1 e2 : List Char)
    (hs : s ≠ []) (h1 : ∀ c ∈ e1, c ≠ '.') (h2 : ∀ c ∈ e2, c ≠ '.') :
    extract_file_info fs (d ++ [s ++ '.' :: e1]) = extract_file_info fs (d ++ [s ++ '.' :: e2]) ∧
    extract_file_info fs (d ++ [s ++ '.' :: e1]) =
      (if fs.fsExists (d ++ [s ++ mp3Ext]) && fs.fsExists (d ++ [s ++ txtExt])
       then some (d ++ [s ++ mp3Ext], d ++ [s ++ txtExt]) else none) := by
  have hst1 := stemOf_append_ext s e1 hs h1
  have hst2 := stemOf_append_ext s e2 hs h2
  rw [extract_file_info_concat, extract_file_info_concat, hst1, hst2]
  exact ⟨rfl, rfl⟩

/-- The extension `mp3`, without its dot. -/
def eMp3 : List Char := ['m', 'p', '3']

/-- The extension `txt`, without its dot. -/
def eTxt : List Char := ['t', 'x', 't']

/-- Witness for C10: the `.mp3` and `.txt` notification paths of the
markerless fixture pair resolve to the identical pair. -/
theorem c10_witness :
    extract_file_info fsWN ([compWatch, compSub] ++ [stemN ++ '.' :: eMp3])
      = extract_file_info fsWN ([compWatch, compSub] ++ [stemN ++ '.' :: eTxt]) ∧
    extract_file_info fsWN ([compWatch, compSub] ++ [stemN ++ '.' :: eMp3])
      = (if fsWN.fsExists ([compWatch, compSub] ++ [stemN ++ mp3Ext])
            && fsWN.fsExists ([compWatch, compSub] ++ [stemN ++ txtExt])
         then some ([compWatch, compSub] ++ [stemN ++ mp3Ext],
                    [compWatch, compSub] ++ [stemN ++ txtExt])
         else none) :=
  c10_extension_insensitive fsWN [compWatch, compSub] stemN eMp3 eTxt
    (by decide) (by decide) (by decide)

end Uploader
